import Mathlib

/-!
Verification of the Honda generator BLE integration against its
natural-language specification.  The definitions below are shallow
embeddings of the Python sources under `custom_components/honda_generator/`
(`api.py`, `coordinator.py`, `services.py`): byte strings become `List Nat`,
machine integers become `Nat`/`Int`, wall-clock datetimes become `ℚ`
(seconds since the epoch), and fallible or stateful code becomes explicit
state passing over environments describing transport behaviour.
-/

namespace HondaGenerator

/-! ## Poll protocol: diagnostic command checksum (`api.py`)

`PollAPI._create_command` builds the 10-byte command
`[0x01, 0x42, register, position[0], position[1], 0x30, 0x30, ck_hi, ck_lo, 0x04]`
where `ck_hi`/`ck_lo` are the ASCII codes of the two uppercase hex digits of
the XOR of bytes 1..6.  `PollAPI._verify_checksum` recomputes the XOR of
bytes 1..6 and compares against bytes 7 and 8.
-/

/-- ASCII code of the uppercase hex digit Python's `ord(format(n, "X"))`
produces for a nibble `n < 16` (junk above 15, where Python would raise). -/
def hexDigitOrd (n : Nat) : Nat :=
  if n < 10 then 48 + n else 55 + n

/-- The XOR accumulation `for i in range(1, 7): cksum ^= data[i]` shared by
`_create_command` and `_verify_checksum`. -/
def xorChecksum (data : List Nat) : Nat :=
  ((data.drop 1).take 6).foldl (fun c b => c ^^^ b) 0

/-- `PollAPI._create_command`: register byte and the two position bytes are
the `ord`s of the characters of the Python strings. -/
def create_command (register p0 p1 : Nat) : List Nat :=
  let data : List Nat := [0x01, 0x42, register, p0, p1, 0x30, 0x30, 0x00, 0x00, 0x04]
  let cksum := xorChecksum data
  (data.set 7 (hexDigitOrd (cksum >>> 4))).set 8 (hexDigitOrd (cksum &&& 0xF))

/-- `PollAPI._verify_checksum` (total model: out-of-range indices read as 0,
matching Python exactly on inputs of length at least 9). -/
def verify_checksum (data : List Nat) : Bool :=
  let cksum := xorChecksum data
  (data.getD 7 0 == hexDigitOrd (cksum >>> 4)) &&
    (data.getD 8 0 == hexDigitOrd (cksum &&& 0xF))

/-! ## Poll protocol: `PollAPI._read_diagnostic`

The coroutine is embedded as a pure function over an explicit transport
environment: per outer attempt, whether the GATT write succeeded and which
raw notification payloads arrive (in order) while waiting on the response
queue.  The stale-queue drain at the top of each attempt discards payloads
queued before the write; those discarded payloads are not part of the
environment because the code never inspects them.
-/

/-- Environment of one outer attempt of `_read_diagnostic`: the outcome of
the `write_gatt_char` call and the raw payloads delivered to the response
queue while this attempt waits; an exhausted list is a queue-wait timeout. -/
structure AttemptEnv where
  writeOk : Bool
  arrivals : List (List Nat)

/-- Value of one ASCII hex-digit byte, as `bytes.fromhex` reads it (junk 0
for non-hex bytes, where Python would raise). -/
def hexCharVal (c : Nat) : Nat :=
  if 48 ≤ c ∧ c ≤ 57 then c - 48
  else if 65 ≤ c ∧ c ≤ 70 then c - 55
  else if 97 ≤ c ∧ c ≤ 102 then c - 87
  else 0

/-- The byte returned by `bytes.fromhex(data[5:7].decode())`. -/
def responseValue (data : List Nat) : Nat :=
  16 * hexCharVal (data.getD 5 0) + hexCharVal (data.getD 6 0)

/-- Result of `_read_diagnostic`.  The `b"\x00"` returned while shutting
down is `ok 0`; `notConnected` is the raised `BleakError`; `readFailed`
is the `APIReadError` whose message names the register and position. -/
inductive DiagResult where
  | ok (value : Nat)
  | notConnected
  | readFailed (register p0 p1 : Nat)
deriving DecidableEq, Repr

/-- A raw queued payload is accepted for request `(register, p0 p1)` iff,
after dropping its first byte, the checksum verifies and bytes 2..4 echo
the requested register and position. -/
def acceptedResponse (register p0 p1 : Nat) (raw : List Nat) : Prop :=
  verify_checksum (raw.drop 1) = true ∧
    (raw.drop 1).getD 2 0 = register ∧
    (raw.drop 1).getD 3 0 = p0 ∧ (raw.drop 1).getD 4 0 = p1

instance (register p0 p1 : Nat) (raw : List Nat) :
    Decidable (acceptedResponse register p0 p1 raw) := by
  unfold acceptedResponse; infer_instance

/-- The inner `for response_attempt in range(3)` loop: pull up to `fuel`
payloads from the queue; accept on checksum + echo match, otherwise discard
and keep waiting; an empty arrival list is a queue timeout (`break`). -/
def responseLoop (register p0 p1 : Nat) : Nat → List (List Nat) → Option Nat
  | 0, _ => none
  | _ + 1, [] => none
  | fuel + 1, raw :: rest =>
    let data := raw.drop 1
    if verify_checksum data then
      if data.getD 2 0 = register ∧ data.getD 3 0 = p0 ∧ data.getD 4 0 = p1 then
        some (responseValue data)
      else
        responseLoop register p0 p1 fuel rest
    else
      responseLoop register p0 p1 fuel rest

/-- The outer `for attempt in range(3)` loop of `_read_diagnostic`,
returning the result together with the number of outer attempts performed.
Each iteration rechecks the shutdown and connection flags, drains the stale
queue, writes the command (write failure backs off and retries), then runs
the response loop with 3 inner tries. -/
def attemptLoop (shuttingDown connected : Bool) (register p0 p1 : Nat) :
    Nat → List AttemptEnv → DiagResult × Nat
  | 0, _ => (.readFailed register p0 p1, 0)
  | fuel + 1, env =>
    if shuttingDown then (.ok 0, 0)
    else if ¬connected then (.notConnected, 0)
    else
      let e := env.headD ⟨true, []⟩
      if e.writeOk then
        match responseLoop register p0 p1 3 e.arrivals with
        | some v => (.ok v, 1)
        | none =>
          let r := attemptLoop shuttingDown connected register p0 p1 fuel env.tail
          (r.1, r.2 + 1)
      else
        let r := attemptLoop shuttingDown connected register p0 p1 fuel env.tail
        (r.1, r.2 + 1)

/-- `PollAPI._read_diagnostic`: fast paths for shutdown / not connected,
then the 3-attempt outer loop. -/
def read_diagnostic (shuttingDown connected : Bool) (register p0 p1 : Nat)
    (env : List AttemptEnv) : DiagResult × Nat :=
  if shuttingDown then (.ok 0, 0)
  else if ¬connected then (.notConnected, 0)
  else attemptLoop shuttingDown connected register p0 p1 3 env

/-- A queued response for register `"B"` position `"00"` with value byte
`0x07` (first byte is the notification prefix the code strips). -/
def staleRaw : List Nat := [170, 1, 66, 66, 48, 48, 48, 55, 48, 55, 4]

/-- A queued response for register `"B"` position `"01"` with value byte
`0x2A = 42`. -/
def correctRaw : List Nat := [170, 1, 66, 66, 48, 49, 50, 65, 55, 50, 4]

/-! ## Poll protocol: `PollAPI.engine_stop`

Embedded over a script of write outcomes, one per `write_gatt_char` call:
success, `TimeoutError`, or any other exception (connection dropped).
Returns the Python boolean result together with the `self.connected` flag
after the call.
-/

/-- Outcome of one stop-command write. -/
inductive WriteOutcome where
  | ok
  | timeout
  | exc
deriving DecidableEq, Repr

/-- The `while attempts < max_attempts` loop of `engine_stop`: a successful
write consumes one attempt; a timeout or exception sets `connected = False`
and returns `True`; exhausting the attempts returns `True` with the flag
untouched.  A script shorter than the loop defaults to successful writes. -/
def engineStopLoop (connectedFlag : Bool) : Nat → List WriteOutcome → Bool × Bool
  | 0, _ => (true, connectedFlag)
  | fuel + 1, outcomes =>
    match outcomes.headD .ok with
    | .ok => engineStopLoop connectedFlag fuel outcomes.tail
    | .timeout => (true, false)
    | .exc => (true, false)

/-- `PollAPI.engine_stop`: returns `False` immediately when no client is
connected at entry, otherwise runs the write loop. -/
def engine_stop (clientConnected connectedFlag : Bool) (maxAttempts : Nat)
    (outcomes : List WriteOutcome) : Bool × Bool :=
  if ¬clientConnected then (false, connectedFlag)
  else engineStopLoop connectedFlag maxAttempts outcomes

/-! ## Push protocol: `PushAPI._parse_can_message` (`api.py`)

The cumulative `self._state` dict becomes a record of `Option` fields
(`none` = key never written).  CAN IDs and the voltage-settings table are
the module constants of `api.py`.
-/

def CAN_ECU_STATUS : Nat := 0x312
def CAN_INV_INFO : Nat := 0x332
def CAN_INV_INFO2 : Nat := 0x352
def CAN_ECU_INFO_ETC : Nat := 0x362
def CAN_OUTPUT_SETTING : Nat := 0x5D2
def CAN_ECU_ERROR : Nat := 0x3A2
def CAN_INV_ERROR : Nat := 0x3B2
def CAN_BT_ERROR : Nat := 0x3A5

/-- `VOLTAGE_SETTINGS.get(setting, 0)`. -/
def voltageSettings (setting : Nat) : Nat :=
  if setting = 1 then 100
  else if setting = 2 then 110
  else if setting = 3 then 115
  else if setting = 4 then 120
  else if setting = 5 then 220
  else if setting = 6 then 230
  else if setting = 7 then 240
  else 0

/-- The cumulative Push-architecture device state (`PushAPI._state`). -/
structure PushState where
  engine_mode : Option Nat := none
  eco_status : Option Bool := none
  power_watts : Option Nat := none
  voltage : Option Nat := none
  current : Option ℚ := none
  runtime_hours : Option Nat := none
  fuel_ml : Option Nat := none
  fuel_remaining_min : Option Nat := none
  fuel_level_discrete : Option Nat := none
  voltage_setting : Option Nat := none
  ecu_errors : Option (List Nat) := none
  inv_errors : Option (List Nat) := none
  bt_errors : Option (List Nat) := none
deriving DecidableEq, Repr

/-- `struct.unpack("<H", payload[i:i+2])[0]`: u16 little-endian at offset `i`. -/
def u16le (payload : List Nat) (i : Nat) : Nat :=
  payload.getD i 0 + 256 * payload.getD (i + 1) 0

/-- `PushAPI._parse_error_bytes`: every set bit becomes
`byte_index * 8 + bit_index`. -/
def parse_error_bytes (payload : List Nat) : List Nat :=
  (List.range payload.length).flatMap fun byteIdx =>
    (List.range 8).filterMap fun bitIdx =>
      if payload.getD byteIdx 0 &&& (1 <<< bitIdx) ≠ 0 then
        some (byteIdx * 8 + bitIdx)
      else none

/-- `PushAPI._parse_can_message`: payloads shorter than 2 bytes are dropped
outright; otherwise each recognised CAN ID overwrites exactly the fields
whose byte offsets are in range, leaving every other field untouched.
Total function: never raises, like the source. -/
def parse_can_message (can_id : Nat) (payload : List Nat) (st : PushState) : PushState :=
  if payload.length < 2 then st
  else if can_id = CAN_ECU_STATUS then
    let st := if payload.length ≥ 1 then { st with engine_mode := some (payload.getD 0 0) } else st
    if payload.length ≥ 3 then
      { st with eco_status := some (payload.getD 2 0 = 0 ∨ payload.getD 2 0 = 2 : Bool) }
    else st
  else if can_id = CAN_INV_INFO then
    let st := if payload.length ≥ 2 then { st with power_watts := some (u16le payload 0) } else st
    let st := if payload.length ≥ 4 then { st with voltage := some (u16le payload 2) } else st
    if payload.length ≥ 6 then
      { st with current := some ((u16le payload 4 : ℚ) / 500) }
    else st
  else if can_id = CAN_INV_INFO2 then
    if payload.length ≥ 6 then { st with runtime_hours := some (u16le payload 4) } else st
  else if can_id = CAN_ECU_INFO_ETC then
    let st := if payload.length ≥ 2 then { st with fuel_ml := some (u16le payload 0) } else st
    let st :=
      if payload.length ≥ 4 then { st with fuel_remaining_min := some (u16le payload 2) } else st
    if payload.length ≥ 6 then
      { st with fuel_level_discrete := some (payload.getD 5 0) }
    else st
  else if can_id = CAN_OUTPUT_SETTING then
    if payload.length ≥ 1 then
      { st with voltage_setting := some (voltageSettings (payload.getD 0 0)) }
    else st
  else if can_id = CAN_ECU_ERROR then
    { st with ecu_errors := some (parse_error_bytes payload) }
  else if can_id = CAN_INV_ERROR then
    { st with inv_errors := some (parse_error_bytes payload) }
  else if can_id = CAN_BT_ERROR then
    { st with bt_errors := some (parse_error_bytes payload) }
  else st

/-! ## Reliability supervisor: runtime-hours plausibility (`coordinator.py`)

`_stored_runtime_hours` / `_stored_runtime_hours_timestamp` /
`_runtime_history` become a record; timestamps are rational seconds.
-/

/-- Persistent runtime-hours state owned by `HondaGeneratorCoordinator`. -/
structure RuntimeState where
  stored : Option Int
  storedTs : Option ℚ
  history : List (Int × ℚ)
deriving DecidableEq, Repr

/-- `HondaGeneratorCoordinator._validate_runtime_hours(value, now)`. -/
def validate_runtime_hours (stored : Option Int) (storedTs : Option ℚ)
    (value : Int) (now : ℚ) : Bool :=
  match stored with
  | none => true
  | some m =>
    if value ≤ m then true
    else
      match storedTs with
      | none => true
      | some ts =>
        let elapsed_hours : ℚ := (now - ts) / 3600
        let max_increase : ℚ := elapsed_hours + 1
        let actual_increase : ℚ := ((value - m : Int) : ℚ)
        if actual_increase > max_increase then false else true

/-- `HondaGeneratorCoordinator._async_save_runtime_hours(value)` at wall
time `now`: reject implausible values, store new maxima, append them to the
history and prune entries more than 24 hours (of runtime) behind.  (The
lazy first-time service-record initialization is outside this model.) -/
def save_runtime_hours (st : RuntimeState) (value : Int) (now : ℚ) : RuntimeState :=
  if validate_runtime_hours st.stored st.storedTs value now = false then st
  else
    let newMax : Bool :=
      match st.stored with
      | none => true
      | some m => decide (value > m)
    if newMax then
      { stored := some value, storedTs := some now,
        history := (st.history ++ [(value, now)]).filter fun e => e.1 ≥ value - 24 }
    else st

/-- One device row, restricted to the fields
`HondaGeneratorCoordinator._apply_runtime_hours_bounds` reads: whether it is
the RUNTIME_HOURS device, and its state. -/
structure Device where
  isRuntimeHours : Bool
  state : Option Int
deriving DecidableEq, Repr

/-- `HondaGeneratorCoordinator._apply_runtime_hours_bounds(devices)`:
substitute the stored maximum for candidates below it (backwards jump) or
failing the plausibility filter (implausible forwards jump). -/
def apply_runtime_hours_bounds (stored : Option Int) (storedTs : Option ℚ) (now : ℚ)
    (devices : List Device) : List Device :=
  match stored with
  | none => devices
  | some m =>
    devices.map fun d =>
      if d.isRuntimeHours then
        match d.state with
        | none => d
        | some v =>
          if v < m then { d with state := some m }
          else if validate_runtime_hours (some m) storedTs v now = false then
            { d with state := some m }
          else d
      else d

/-! ## Reliability supervisor: usage-rate estimation (`coordinator.py`)

History entries are modeled as already-parsed `(hours, timestamp)` pairs
(the source's per-entry parse failures drop malformed dict entries before
this computation).
-/

/-- Stable insertion by timestamp: the new element goes before the first
strictly-later-or-equal entry of the (later-sampled) sorted tail, modeling
Python's stable `parsed.sort(key=lambda x: x[1])`. -/
def insertByTs (x : Int × ℚ) : List (Int × ℚ) → List (Int × ℚ)
  | [] => [x]
  | y :: ys => if x.2 ≤ y.2 then x :: y :: ys else y :: insertByTs x ys

/-- Stable sort by timestamp. -/
def sortByTs : List (Int × ℚ) → List (Int × ℚ)
  | [] => []
  | x :: xs => insertByTs x (sortByTs xs)

/-- The reversed gap scan `for i in range(len(parsed) - 1, 0, -1)` of
`get_hours_per_day`: the largest index `i ≥ 1` whose entry is at least 7
days after its predecessor, else 0. -/
def findGapIdx (parsed : List (Int × ℚ)) : Nat → Nat
  | 0 => 0
  | i + 1 =>
    if ((parsed.getD (i + 1) (0, 0)).2 - (parsed.getD i (0, 0)).2) / 86400 ≥ 7 then i + 1
    else findGapIdx parsed i

/-- `HondaGeneratorCoordinator.get_hours_per_day`: hours per wall-clock day
over the samples after the most recent ≥ 7-day gap. -/
def get_hours_per_day (history : List (Int × ℚ)) : Option ℚ :=
  if history.length < 2 then none
  else
    let parsed := sortByTs history
    if parsed.length < 2 then none
    else
      let start_idx := findGapIdx parsed (parsed.length - 1)
      if start_idx ≥ parsed.length - 1 then none
      else
        let s := parsed.getD start_idx (0, 0)
        let e := parsed.getD (parsed.length - 1) (0, 0)
        let total_seconds := e.2 - s.2
        if total_seconds ≤ 0 then none
        else some (((e.1 - s.1 : Int) : ℚ) / (total_seconds / 86400))

/-! ## Reliability supervisor: maintenance due-date estimation
(`coordinator.py` + `services.py`) -/

/-- `services.ServiceInterval`. -/
structure ServiceInterval where
  hours : Option Int
  days : Option Int
deriving DecidableEq, Repr

/-- `services.OIL_CHANGE_BREAKIN_INTERVAL = ServiceInterval(hours=20, days=30)`. -/
def OIL_CHANGE_BREAKIN_INTERVAL : ServiceInterval := ⟨some 20, some 30⟩

/-- A stored service record: `record.get("hours", 0)` (missing key modeled
by the applied default) and the parsed `record.get("date")` (unparsable or
missing dates are `none`, matching the swallowed parse errors). -/
structure ServiceRecord where
  hours : Int
  date : Option ℚ
deriving DecidableEq, Repr

/-- The slice of coordinator state `is_service_due` and
`get_estimated_service_date` read for one service type. -/
structure ServiceCtx where
  interval : Option ServiceInterval
  isOilChange : Bool
  record : Option ServiceRecord
  storedRuntimeHours : Option Int
  history : List (Int × ℚ)
  snapshot : Option ℚ

/-- The break-in override shared by `is_service_due` and
`get_estimated_service_date`: oil changes last recorded under
`OIL_CHANGE_BREAKIN_INTERVAL.hours` use the break-in interval. -/
def effectiveInterval (isOilChange : Bool) (lastServiceHours : Int)
    (interval : ServiceInterval) : ServiceInterval :=
  if isOilChange ∧ lastServiceHours < (OIL_CHANGE_BREAKIN_INTERVAL.hours).getD 0 then
    OIL_CHANGE_BREAKIN_INTERVAL
  else interval

/-- `HondaGeneratorCoordinator.is_service_due` at wall time `now`.  The
Python `if interval.hours:` / `if interval.days:` tests are truthiness
tests, so a 0 interval is skipped; `(now - date).days` floors toward
negative infinity. -/
def is_service_due (ctx : ServiceCtx) (now : ℚ) : Bool :=
  match ctx.interval with
  | none => false
  | some interval0 =>
    match ctx.record with
    | none => false
    | some record =>
      let current_hours := ctx.storedRuntimeHours.getD 0
      let interval := effectiveInterval ctx.isOilChange record.hours interval0
      let hoursDue : Bool :=
        match interval.hours with
        | some h => decide (h ≠ 0) && decide (current_hours - record.hours ≥ h)
        | none => false
      let daysDue : Bool :=
        match interval.days with
        | some d =>
          decide (d ≠ 0) &&
            (match record.date with
             | some date => decide ((⌊(now - date) / 86400⌋ : Int) ≥ d)
             | none => false)
        | none => false
      hoursDue || daysDue

/-- `result.replace(minute=0, second=0, microsecond=0)`: floor a timestamp
to the start of its hour. -/
def floorHour (t : ℚ) : ℚ := ((⌊t / 3600⌋ : Int) : ℚ) * 3600

/-- `HondaGeneratorCoordinator.get_estimated_service_date` at wall time
`now`: returns the estimate together with the `_service_due_dates` snapshot
entry after the call (the code mutates it: stored on first crossing into
due, popped when not due). -/
def get_estimated_service_date (ctx : ServiceCtx) (now : ℚ) : Option ℚ × Option ℚ :=
  match ctx.interval with
  | none => (none, ctx.snapshot)
  | some interval0 =>
    match ctx.record with
    | none => (none, ctx.snapshot)
    | some record =>
      let current_hours := ctx.storedRuntimeHours.getD 0
      let interval := effectiveInterval ctx.isOilChange record.hours interval0
      let hoursEstimate : Option ℚ :=
        match interval.hours with
        | some ihours =>
          let hours_remaining : ℚ := ((record.hours + ihours - current_hours : Int) : ℚ)
          match get_hours_per_day ctx.history with
          | some rate =>
            if rate > 0 then some (now + hours_remaining / rate * 86400)
            else if hours_remaining ≤ 0 then some now
            else none
          | none => if hours_remaining ≤ 0 then some now else none
        | none => none
      let calendarEstimate : Option ℚ :=
        match interval.days with
        | some d =>
          match record.date with
          | some date => some (date + (d : ℚ) * 86400)
          | none => none
        | none => none
      let resultMin : Option ℚ :=
        match hoursEstimate, calendarEstimate with
        | none, none => none
        | some a, none => some a
        | none, some b => some b
        | some a, some b => some (min a b)
      match resultMin with
      | none => (none, ctx.snapshot)
      | some m =>
        let result := floorHour m
        if is_service_due ctx now then
          match ctx.snapshot with
          | some snap => (some snap, ctx.snapshot)
          | none => (some result, some result)
        else (some result, none)

/-- A concrete service context used by the C9 theorems: a 100-hour/180-day
interval, last serviced at 50 hours on date 500 s, current stored hours 100,
a history giving a 4 hours/day usage rate, no snapshot; not yet due. -/
def exampleServiceCtx : ServiceCtx :=
  { interval := some ⟨some 100, some 180⟩
    isOilChange := false
    record := some ⟨50, some 500⟩
    storedRuntimeHours := some 100
    history := [(100, 0), (104, 86400)]
    snapshot := none }

/-- The same context with 200 stored hours (service overdue) and a stored
due-date snapshot. -/
def exampleServiceCtxDue : ServiceCtx :=
  { interval := some ⟨some 100, some 180⟩
    isOilChange := false
    record := some ⟨50, some 500⟩
    storedRuntimeHours := some 200
    history := [(100, 0), (104, 86400)]
    snapshot := some 777 }

/-! ## Reliability supervisor: startup grace period (`coordinator.py`) -/

/-- The coordinator state read and written by `in_startup_grace_period` and
the success/failure tail of `async_update_data`.  `startupTime` and
`startupGracePeriod` are set once in the constructor and never mutated. -/
structure SupervisorState where
  hasConnectedOnce : Bool
  startupTime : ℚ
  startupGracePeriod : ℚ
  consecutiveFailures : Nat
  reconnectAfterFailures : Nat
deriving DecidableEq, Repr

/-- `HondaGeneratorCoordinator.in_startup_grace_period` at monotonic time
`now`. -/
def in_startup_grace_period (st : SupervisorState) (now : ℚ) : Bool :=
  if st.hasConnectedOnce then false
  else if st.startupGracePeriod ≤ 0 then false
  else decide (now - st.startupTime < st.startupGracePeriod)

/-- Outcome of one `async_update_data` cycle. -/
inductive UpdateOutcome where
  | success
  | failure
deriving DecidableEq, Repr

/-- The state mutations of `async_update_data`'s success tail (reset the
failure counter, permanently set `_has_connected_once`) and failure handler
(count the failure; a reached reconnect threshold > 0 forces a reconnect
and resets the counter). -/
def apply_update_outcome (st : SupervisorState) (o : UpdateOutcome) : SupervisorState :=
  match o with
  | .success => { st with consecutiveFailures := 0, hasConnectedOnce := true }
  | .failure =>
    let st' := { st with consecutiveFailures := st.consecutiveFailures + 1 }
    if 0 < st'.reconnectAfterFailures ∧
        st'.reconnectAfterFailures ≤ st'.consecutiveFailures then
      { st' with consecutiveFailures := 0 }
    else st'

/-! ## Helper lemmas -/

lemma hexDigitOrd_injective : Function.Injective hexDigitOrd := by
  intro m n h
  unfold hexDigitOrd at h
  split at h <;> split at h <;> omega

lemma nibble_eq_of_hex_eq {c c' : Nat}
    (h1 : hexDigitOrd (c' >>> 4) = hexDigitOrd (c >>> 4))
    (h2 : hexDigitOrd (c' &&& 0xF) = hexDigitOrd (c &&& 0xF)) : c' = c := by
  have e1 := hexDigitOrd_injective h1
  have e2 := hexDigitOrd_injective h2
  have d1 : c' / 16 = c / 16 := by simpa [Nat.shiftRight_eq_div_pow] using e1
  have d2 : c' % 16 = c % 16 := by
    simpa [Nat.and_pow_two_sub_one_eq_mod c' 4, Nat.and_pow_two_sub_one_eq_mod c 4] using e2
  omega

/-- If the recomputed checksum differs from the one baked into the stored
hex digits, verification fails. -/
lemma checksum_digit_mismatch {c c' : Nat} (h : c' ≠ c) :
    ((hexDigitOrd (c >>> 4) == hexDigitOrd (c' >>> 4)) &&
      (hexDigitOrd (c &&& 0xF) == hexDigitOrd (c' &&& 0xF))) = false := by
  rw [Bool.and_eq_false_iff]
  by_contra hx
  push_neg at hx
  obtain ⟨h1, h2⟩ := hx
  rw [Bool.ne_false_iff, beq_iff_eq] at h1 h2
  exact h (nibble_eq_of_hex_eq h1.symm h2.symm)

lemma xor_right_cancel {a b c : Nat} (h : a ^^^ c = b ^^^ c) : a = b := by
  have := congrArg (fun x => x ^^^ c) h
  simpa [Nat.xor_assoc] using this

lemma xor_left_cancel {c a b : Nat} (h : c ^^^ a = c ^^^ b) : a = b := by
  rw [Nat.xor_comm c a, Nat.xor_comm c b] at h
  exact xor_right_cancel h

lemma responseLoop_sound {register p0 p1 v : Nat} :
    ∀ {fuel : Nat} {arrivals : List (List Nat)},
      responseLoop register p0 p1 fuel arrivals = some v →
      ∃ raw ∈ arrivals, acceptedResponse register p0 p1 raw ∧
        responseValue (raw.drop 1) = v := by
  intro fuel
  induction fuel with
  | zero => intro arrivals h; simp [responseLoop] at h
  | succ n ih =>
    intro arrivals h
    match arrivals with
    | [] => simp [responseLoop] at h
    | raw :: rest =>
      rw [responseLoop] at h
      by_cases hv : verify_checksum (raw.drop 1) = true
      · rw [if_pos hv] at h
        by_cases hm : (raw.drop 1).getD 2 0 = register ∧
            (raw.drop 1).getD 3 0 = p0 ∧ (raw.drop 1).getD 4 0 = p1
        · rw [if_pos hm] at h
          exact ⟨raw, List.mem_cons_self raw rest,
            ⟨hv, hm.1, hm.2.1, hm.2.2⟩, Option.some_injective _ h⟩
        · rw [if_neg hm] at h
          obtain ⟨r, hr, ha, hval⟩ := ih h
          exact ⟨r, List.mem_cons_of_mem raw hr, ha, hval⟩
      · rw [if_neg hv] at h
        obtain ⟨r, hr, ha, hval⟩ := ih h
        exact ⟨r, List.mem_cons_of_mem raw hr, ha, hval⟩

lemma attemptLoop_succ (register p0 p1 : Nat) (fuel : Nat) (env : List AttemptEnv) :
    attemptLoop false true register p0 p1 (fuel + 1) env =
      (if (env.headD ⟨true, []⟩).writeOk then
        match responseLoop register p0 p1 3 (env.headD ⟨true, []⟩).arrivals with
        | some v => (.ok v, 1)
        | none =>
          ((attemptLoop false true register p0 p1 fuel env.tail).1,
           (attemptLoop false true register p0 p1 fuel env.tail).2 + 1)
      else
        ((attemptLoop false true register p0 p1 fuel env.tail).1,
         (attemptLoop false true register p0 p1 fuel env.tail).2 + 1)) := by
  simp [attemptLoop]

lemma attemptLoop_sound {register p0 p1 v : Nat} :
    ∀ {fuel : Nat} {env : List AttemptEnv},
      (attemptLoop false true register p0 p1 fuel env).1 = .ok v →
      ∃ e ∈ env, ∃ raw ∈ e.arrivals, acceptedResponse register p0 p1 raw ∧
        responseValue (raw.drop 1) = v := by
  intro fuel
  induction fuel with
  | zero => intro env h; simp [attemptLoop] at h
  | succ m ih =>
    intro env h
    rw [attemptLoop_succ] at h
    cases env with
    | nil =>
      simp only [List.headD_nil, List.tail_nil] at h
      have hnone : responseLoop register p0 p1 3 ([] : List (List Nat)) = none := rfl
      simp only [hnone, if_true] at h
      obtain ⟨e, he, _⟩ := ih h
      simp at he
    | cons e0 rest =>
      simp only [List.headD_cons, List.tail_cons] at h
      by_cases hw : e0.writeOk = true
      · rw [if_pos hw] at h
        cases hres : responseLoop register p0 p1 3 e0.arrivals with
        | some u =>
          rw [hres] at h
          simp only [DiagResult.ok.injEq] at h
          obtain ⟨raw, hraw, ha, hval⟩ := responseLoop_sound (h ▸ hres)
          exact ⟨e0, List.mem_cons_self e0 rest, raw, hraw, ha, hval⟩
        | none =>
          rw [hres] at h
          obtain ⟨e, he, raw, hraw, ha, hval⟩ := ih h
          exact ⟨e, List.mem_cons_of_mem e0 he, raw, hraw, ha, hval⟩
      · rw [if_neg hw] at h
        obtain ⟨e, he, raw, hraw, ha, hval⟩ := ih h
        exact ⟨e, List.mem_cons_of_mem e0 he, raw, hraw, ha, hval⟩

lemma responseLoop_none_of_bad {register p0 p1 : Nat} :
    ∀ {fuel : Nat} {arrivals : List (List Nat)},
      (∀ raw ∈ arrivals, verify_checksum (raw.drop 1) = false) →
      responseLoop register p0 p1 fuel arrivals = none := by
  intro fuel
  induction fuel with
  | zero => intro arrivals _; rfl
  | succ n ih =>
    intro arrivals h
    match arrivals with
    | [] => rfl
    | raw :: rest =>
      rw [responseLoop]
      rw [h raw (List.mem_cons_self raw rest)]
      simp only [Bool.false_eq_true, if_false]
      exact ih fun r hr => h r (List.mem_cons_of_mem raw hr)

lemma attemptLoop_exhaust {register p0 p1 : Nat} :
    ∀ {fuel : Nat} {env : List AttemptEnv},
      (∀ e ∈ env, e.writeOk = true) →
      (∀ e ∈ env, ∀ raw ∈ e.arrivals, verify_checksum (raw.drop 1) = false) →
      attemptLoop false true register p0 p1 fuel env =
        (.readFailed register p0 p1, fuel) := by
  intro fuel
  induction fuel with
  | zero => intro env _ _; rfl
  | succ m ih =>
    intro env hw hbad
    rw [attemptLoop_succ]
    cases env with
    | nil =>
      simp only [List.headD_nil, List.tail_nil]
      have hnone : responseLoop register p0 p1 3 ([] : List (List Nat)) = none := rfl
      rw [if_pos trivial, hnone]
      rw [ih (by simp) (by simp)]
    | cons e0 rest =>
      simp only [List.headD_cons, List.tail_cons]
      rw [if_pos (hw e0 (List.mem_cons_self e0 rest))]
      rw [responseLoop_none_of_bad (hbad e0 (List.mem_cons_self e0 rest))]
      rw [ih (fun e he => hw e (List.mem_cons_of_mem e0 he))
          (fun e he => hbad e (List.mem_cons_of_mem e0 he))]

/-! ## Claim theorems -/

/-- C2: for every register (a single uppercase letter, byte 65..90) and
every two-character position (bytes < 256), the built command passes
checksum verification; and changing any single byte among positions 1..6
to a different byte value makes verification fail. -/
theorem checksum_roundtrip_and_single_corruption :
    (∀ register p0 p1 : Nat, 65 ≤ register → register ≤ 90 → p0 < 256 → p1 < 256 →
      verify_checksum (create_command register p0 p1) = true) ∧
    (∀ register p0 p1 i b : Nat, 65 ≤ register → register ≤ 90 → p0 < 256 → p1 < 256 →
      1 ≤ i → i ≤ 6 → b < 256 → b ≠ (create_command register p0 p1).getD i 0 →
      verify_checksum ((create_command register p0 p1).set i b) = false) := by
  constructor
  · intro register p0 p1 _ _ _ _
    simp [create_command, verify_checksum, xorChecksum]
  · intro register p0 p1 i b _ _ _ _ hi1 hi6 _ hb
    simp only [create_command, xorChecksum, List.set, List.getD, List.drop, List.take,
      List.foldl, List.get?, Option.getD_some] at hb
    interval_cases i <;>
      simp only [create_command, verify_checksum, xorChecksum, List.set, List.getD,
        List.drop, List.take, List.foldl, List.get?, Option.getD_some] at hb ⊢ <;>
      apply checksum_digit_mismatch <;> intro heq <;> apply hb
    · exact xor_left_cancel (xor_right_cancel (xor_right_cancel
        (xor_right_cancel (xor_right_cancel (xor_right_cancel heq)))))
    · exact xor_left_cancel
        (xor_right_cancel (xor_right_cancel (xor_right_cancel (xor_right_cancel heq))))
    · exact xor_left_cancel (xor_right_cancel (xor_right_cancel (xor_right_cancel heq)))
    · exact xor_left_cancel (xor_right_cancel (xor_right_cancel heq))
    · exact xor_left_cancel (xor_right_cancel heq)
    · exact xor_left_cancel heq

/-- C2 witness: command for register `"B"` position `"01"`; corrupting the
register byte (index 2) to `"C"` breaks verification. -/
theorem checksum_roundtrip_and_single_corruption_witness :
    verify_checksum (create_command 66 48 49) = true ∧
    verify_checksum ((create_command 66 48 49).set 2 67) = false :=
  ⟨checksum_roundtrip_and_single_corruption.1 66 48 49 (by decide) (by decide)
      (by decide) (by decide),
    checksum_roundtrip_and_single_corruption.2 66 48 49 2 67 (by decide) (by decide)
      (by decide) (by decide) (by decide) (by decide) (by decide) (by decide)⟩

/-- C1: over the Poll protocol (connected, not shutting down), a value is
returned only when some queued response passes the checksum and echoes the
requested register and position, and its value is the returned one; in the
spec's concrete scenario — a stale `("B","00")` response queued ahead of
the correct `("B","01")` response — `readDiagnostic("B","01")` returns the
value `0x2A = 42` of the second response on the first attempt, and the
stale response is not accepted. -/
theorem read_diagnostic_response_correlation :
    (∀ (register p0 p1 v n : Nat) (env : List AttemptEnv),
      read_diagnostic false true register p0 p1 env = (.ok v, n) →
      ∃ e ∈ env, ∃ raw ∈ e.arrivals, acceptedResponse register p0 p1 raw ∧
        responseValue (raw.drop 1) = v) ∧
    read_diagnostic false true 66 48 49 [⟨true, [staleRaw, correctRaw]⟩] = (.ok 42, 1) ∧
    ¬acceptedResponse 66 48 49 staleRaw ∧ acceptedResponse 66 48 49 correctRaw ∧
    responseValue (correctRaw.drop 1) = 42 := by
  refine ⟨?_, by decide, by decide, by decide, by decide⟩
  intro register p0 p1 v n env h
  have hred : read_diagnostic false true register p0 p1 env =
      attemptLoop false true register p0 p1 3 env := by
    simp [read_diagnostic]
  have hfst : (attemptLoop false true register p0 p1 3 env).1 = .ok v := by
    rw [hred] at h
    rw [h]
  exact attemptLoop_sound hfst

/-- C1 witness: the general acceptance statement applied to the concrete
stale-then-correct queue. -/
theorem read_diagnostic_response_correlation_witness :
    ∃ e ∈ ([⟨true, [staleRaw, correctRaw]⟩] : List AttemptEnv), ∃ raw ∈ e.arrivals,
      acceptedResponse 66 48 49 raw ∧ responseValue (raw.drop 1) = 42 :=
  read_diagnostic_response_correlation.1 66 48 49 42 1 _ (by decide)

/-- C3: if the session is connected and not shutting down, every write
succeeds and every queued response fails checksum verification, then
`_read_diagnostic` performs exactly 3 outer write-and-wait attempts and
fails with the `APIReadError` naming the register and position — never a
fourth attempt, never a value from a corrupted response. -/
theorem read_diagnostic_retry_exhaustion :
    ∀ (register p0 p1 : Nat) (env : List AttemptEnv),
      (∀ e ∈ env, e.writeOk = true) →
      (∀ e ∈ env, ∀ raw ∈ e.arrivals, verify_checksum (raw.drop 1) = false) →
      read_diagnostic false true register p0 p1 env =
        (.readFailed register p0 p1, 3) := by
  intro register p0 p1 env hw hbad
  have hred : read_diagnostic false true register p0 p1 env =
      attemptLoop false true register p0 p1 3 env := by
    simp [read_diagnostic]
  rw [hred, attemptLoop_exhaust hw hbad]

/-- C3 witness: three attempts against a transport that always delivers a
corrupted response. -/
theorem read_diagnostic_retry_exhaustion_witness :
    read_diagnostic false true 66 48 49
      [⟨true, [[170, 1, 2, 3]]⟩, ⟨true, [[170, 1, 2, 3]]⟩, ⟨true, [[170, 1, 2, 3]]⟩] =
      (.readFailed 66 48 49, 3) :=
  read_diagnostic_retry_exhaustion 66 48 49 _ (by decide) (by decide)



lemma save_stored_mono (st : RuntimeState) (v : Int) (now : ℚ) (h : Int)
    (hst : st.stored = some h) :
    ∃ h', (save_runtime_hours st v now).stored = some h' ∧ h ≤ h' := by
  unfold save_runtime_hours
  by_cases hval : validate_runtime_hours st.stored st.storedTs v now = false
  · rw [if_pos hval]
    exact ⟨h, hst, le_refl h⟩
  · rw [if_neg hval, hst]
    simp only
    by_cases hgt : v > h
    · rw [if_pos (by simpa using hgt)]
      exact ⟨v, rfl, le_of_lt hgt⟩
    · rw [if_neg (by simpa using hgt)]
      exact ⟨h, hst, le_refl h⟩

/-- C4: applying any sequence of candidate readings through
`_async_save_runtime_hours` never decreases the stored runtime-hours value;
`_apply_runtime_hours_bounds` replaces a candidate strictly below the
stored maximum by the stored maximum, and likewise replaces a candidate
whose increase exceeds the elapsed wall-clock hours plus 1. -/
theorem runtime_hours_monotonic_bounds :
    (∀ (st : RuntimeState) (events : List (Int × ℚ)) (h : Int),
      st.stored = some h →
      ∃ h', (events.foldl (fun s e => save_runtime_hours s e.1 e.2) st).stored = some h' ∧
        h ≤ h') ∧
    (∀ (m v : Int) (tsOpt : Option ℚ) (now : ℚ), v < m →
      apply_runtime_hours_bounds (some m) tsOpt now [⟨true, some v⟩] = [⟨true, some m⟩]) ∧
    (∀ (m v : Int) (ts now : ℚ), m < v →
      ((v - m : Int) : ℚ) > (now - ts) / 3600 + 1 →
      apply_runtime_hours_bounds (some m) (some ts) now [⟨true, some v⟩] =
        [⟨true, some m⟩]) := by
  refine ⟨?_, ?_, ?_⟩
  · intro st events
    induction events generalizing st with
    | nil => intro h hst; exact ⟨h, hst, le_refl h⟩
    | cons e rest ih =>
      intro h hst
      obtain ⟨h1, hst1, hle1⟩ := save_stored_mono st e.1 e.2 h hst
      obtain ⟨h', hst', hle'⟩ := ih (save_runtime_hours st e.1 e.2) h1 hst1
      exact ⟨h', hst', le_trans hle1 hle'⟩
  · intro m v tsOpt now hlt
    simp [apply_runtime_hours_bounds, hlt]
  · intro m v ts now hgt hinc
    have hval : validate_runtime_hours (some m) (some ts) v now = false := by
      unfold validate_runtime_hours
      have hinc' : (now - ts) / 3600 + 1 < (v : ℚ) - (m : ℚ) := by push_cast at hinc; linarith
      simp [not_le.mpr hgt, hinc']
    simp [apply_runtime_hours_bounds, not_lt.mpr (le_of_lt hgt), hval]

/-- C4 witness: concrete instantiations of all three parts. -/
theorem runtime_hours_monotonic_bounds_witness :
    (∃ h', (([((5 : Int), (0 : ℚ)), ((3 : Int), (10 : ℚ))]).foldl
        (fun s e => save_runtime_hours s e.1 e.2) ⟨some 4, some 0, []⟩).stored = some h' ∧
        (4 : Int) ≤ h') ∧
    apply_runtime_hours_bounds (some 10) none 0 [⟨true, some 5⟩] = [⟨true, some 10⟩] ∧
    apply_runtime_hours_bounds (some 10) (some 0) 3600 [⟨true, some 20⟩] =
      [⟨true, some 10⟩] :=
  ⟨runtime_hours_monotonic_bounds.1 ⟨some 4, some 0, []⟩ _ 4 rfl,
   runtime_hours_monotonic_bounds.2.1 10 5 none 0 (by decide),
   runtime_hours_monotonic_bounds.2.2 10 20 0 3600 (by decide) (by norm_num)⟩

/-- C5 counterexample: `_parse_can_message` drops any payload shorter than
2 bytes before dispatching on the CAN ID, so a 1-byte ECU_STATUS payload
does not decode the engine-mode byte and a 1-byte OUTPUT_SETTING payload
does not decode the voltage-setting byte — contrary to the claim. -/
theorem parse_can_short_payload_counterexample :
    parse_can_message CAN_ECU_STATUS [5] {} = ({} : PushState) ∧
    (parse_can_message CAN_ECU_STATUS [5] {}).engine_mode ≠ some 5 ∧
    parse_can_message CAN_OUTPUT_SETTING [4] {} = ({} : PushState) ∧
    (parse_can_message CAN_OUTPUT_SETTING [4] {}).voltage_setting ≠ some 120 := by
  refine ⟨rfl, by simp [parse_can_message], rfl, by simp [parse_can_message]⟩

/-- C5 (amended): payloads shorter than 2 bytes are dropped entirely for
every CAN ID; for payloads of length ≥ 2, exactly the fields whose byte
offsets are in range are decoded and all other fields keep their prior
values, and decoding is total (never raises): a 2-byte ECU_STATUS payload
decodes only the engine mode, an OUTPUT_SETTING payload of length ≥ 2
decodes the voltage setting from byte 0, and an INV_INFO payload of length
2..3 decodes only the power field. -/
theorem parse_can_short_payload_skips_fields :
    (∀ (can_id : Nat) (payload : List Nat) (st : PushState),
      payload.length < 2 → parse_can_message can_id payload st = st) ∧
    (∀ (payload : List Nat) (st : PushState), payload.length = 2 →
      parse_can_message CAN_ECU_STATUS payload st =
        { st with engine_mode := some (payload.getD 0 0) }) ∧
    (∀ (payload : List Nat) (st : PushState), 2 ≤ payload.length →
      parse_can_message CAN_OUTPUT_SETTING payload st =
        { st with voltage_setting := some (voltageSettings (payload.getD 0 0)) }) ∧
    (∀ (payload : List Nat) (st : PushState), 2 ≤ payload.length → payload.length < 4 →
      parse_can_message CAN_INV_INFO payload st =
        { st with power_watts := some (u16le payload 0) }) := by
  refine ⟨?_, ?_, ?_, ?_⟩
  · intro can_id payload st h
    simp [parse_can_message, h]
  · intro payload st h
    simp [parse_can_message, h, CAN_ECU_STATUS]
  · intro payload st h
    have h2 : ¬ payload.length < 2 := by omega
    have h1 : payload.length ≥ 1 := by omega
    simp [parse_can_message, h1, h2, CAN_OUTPUT_SETTING, CAN_ECU_STATUS, CAN_INV_INFO,
      CAN_INV_INFO2, CAN_ECU_INFO_ETC]
  · intro payload st h2 h4
    have hn2 : ¬ payload.length < 2 := by omega
    have hn4 : ¬ payload.length ≥ 4 := by omega
    have hn6 : ¬ payload.length ≥ 6 := by omega
    simp [parse_can_message, hn2, h2, hn4, hn6, CAN_INV_INFO, CAN_ECU_STATUS]

/-- C5 witness: concrete payloads for each amended conjunct. -/
theorem parse_can_short_payload_skips_fields_witness :
    parse_can_message 0 [1] {} = ({} : PushState) ∧
    parse_can_message CAN_ECU_STATUS [7, 9] {} =
      { ({} : PushState) with engine_mode := some 7 } ∧
    parse_can_message CAN_OUTPUT_SETTING [4, 0] {} =
      { ({} : PushState) with voltage_setting := some 120 } ∧
    parse_can_message CAN_INV_INFO [0xE8, 0x03] {} =
      { ({} : PushState) with power_watts := some 1000 } :=
  ⟨parse_can_short_payload_skips_fields.1 0 [1] {} (by decide),
   parse_can_short_payload_skips_fields.2.1 [7, 9] {} rfl,
   parse_can_short_payload_skips_fields.2.2.1 [4, 0] {} (by decide),
   parse_can_short_payload_skips_fields.2.2.2 [0xE8, 0x03] {} (by decide) (by decide)⟩

/-- C6: decoding the INV_INFO payload `[0xE8,0x03,0x78,0x00,0x45,0x10]`
yields power 1000 W, voltage 120 V and current 4165/500 = 8.33 A, and a
2-byte truncated INV_INFO payload updates only the power field, leaving
voltage and current at their prior values. -/
theorem inv_info_decode_determinism :
    (∀ st : PushState,
      parse_can_message CAN_INV_INFO [0xE8, 0x03, 0x78, 0x00, 0x45, 0x10] st =
        { st with power_watts := some 1000, voltage := some 120,
                  current := some ((4165 : ℚ) / 500) }) ∧
    ((4165 : ℚ) / 500 = 833 / 100) ∧
    (∀ st : PushState,
      parse_can_message CAN_INV_INFO [0xE8, 0x03] st =
        { st with power_watts := some 1000 }) := by
  refine ⟨?_, by norm_num, ?_⟩
  · intro st
    simp [parse_can_message, u16le, CAN_INV_INFO, CAN_ECU_STATUS]
  · intro st
    simp [parse_can_message, u16le, CAN_INV_INFO, CAN_ECU_STATUS]

lemma sortByTs_sorted_id :
    ∀ {l : List (Int × ℚ)}, l.Chain' (fun a b => a.2 ≤ b.2) → sortByTs l = l := by
  intro l
  induction l with
  | nil => intro _; rfl
  | cons x xs ih =>
    intro hchain
    rw [sortByTs, ih hchain.tail]
    cases xs with
    | nil => rfl
    | cons y ys =>
      rw [insertByTs, if_pos (List.chain'_cons.mp hchain).1]

lemma findGapIdx_spec_zero (parsed : List (Int × ℚ)) :
    ∀ n : Nat,
      (∀ j, 1 ≤ j → j ≤ n →
        ((parsed.getD j (0, 0)).2 - (parsed.getD (j - 1) (0, 0)).2) / 86400 < 7) →
      findGapIdx parsed n = 0 := by
  intro n
  induction n with
  | zero => intro _; rfl
  | succ m ih =>
    intro h
    rw [findGapIdx]
    have h' := h (m + 1) (by omega) (by omega)
    simp only [Nat.add_sub_cancel] at h'
    rw [if_neg (not_le.mpr h')]
    exact ih fun j h1 h2 => h j h1 (by omega)

lemma findGapIdx_spec_gap (parsed : List (Int × ℚ)) (k : Nat) (hk : 1 ≤ k) :
    ∀ n : Nat, k ≤ n →
      ((parsed.getD k (0, 0)).2 - (parsed.getD (k - 1) (0, 0)).2) / 86400 ≥ 7 →
      (∀ j, k < j → j ≤ n →
        ((parsed.getD j (0, 0)).2 - (parsed.getD (j - 1) (0, 0)).2) / 86400 < 7) →
      findGapIdx parsed n = k := by
  intro n
  induction n with
  | zero => intro h0; omega
  | succ m ih =>
    intro hkn hgap hafter
    rw [findGapIdx]
    by_cases hkm : k = m + 1
    · subst hkm
      rw [if_pos (by simpa using hgap)]
    · have h' := hafter (m + 1) (by omega) (by omega)
      simp only [Nat.add_sub_cancel] at h'
      rw [if_neg (not_le.mpr h')]
      exact ih (by omega) hgap fun j h1 h2 => hafter j h1 (by omega)

/-- C7: `get_hours_per_day` returns no estimate for fewer than two samples;
for a time-sorted history with no ≥ 7-day gap between consecutive samples
(and positive span) it computes the rate over the whole history as
(last hours − first hours) / elapsed days; when the most recent ≥ 7-day gap
ends at index k it computes the rate over the samples from k onward; the
spec's concrete history [(100,t0),(104,t0+1d),(105,t0+1d+20h),(108,t0+2d+20h)]
yields (108−100)/(68/24 days) = 48/17 ≈ 2.82 hours/day, and inserting an
8-day gap before the last two samples restricts the rate to those samples. -/
theorem usage_rate_gap_detection :
    (∀ history : List (Int × ℚ), history.length < 2 → get_hours_per_day history = none) ∧
    (∀ history : List (Int × ℚ),
      history.Chain' (fun a b => a.2 ≤ b.2) → 2 ≤ history.length →
      (∀ j, 1 ≤ j → j ≤ history.length - 1 →
        ((history.getD j (0, 0)).2 - (history.getD (j - 1) (0, 0)).2) / 86400 < 7) →
      0 < (history.getD (history.length - 1) (0, 0)).2 - (history.getD 0 (0, 0)).2 →
      get_hours_per_day history =
        some ((((history.getD (history.length - 1) (0, 0)).1 -
                (history.getD 0 (0, 0)).1 : Int) : ℚ) /
          (((history.getD (history.length - 1) (0, 0)).2 -
            (history.getD 0 (0, 0)).2) / 86400))) ∧
    (∀ (history : List (Int × ℚ)) (k : Nat),
      history.Chain' (fun a b => a.2 ≤ b.2) → 1 ≤ k → k < history.length - 1 →
      ((history.getD k (0, 0)).2 - (history.getD (k - 1) (0, 0)).2) / 86400 ≥ 7 →
      (∀ j, k < j → j ≤ history.length - 1 →
        ((history.getD j (0, 0)).2 - (history.getD (j - 1) (0, 0)).2) / 86400 < 7) →
      0 < (history.getD (history.length - 1) (0, 0)).2 - (history.getD k (0, 0)).2 →
      get_hours_per_day history =
        some ((((history.getD (history.length - 1) (0, 0)).1 -
                (history.getD k (0, 0)).1 : Int) : ℚ) /
          (((history.getD (history.length - 1) (0, 0)).2 -
            (history.getD k (0, 0)).2) / 86400))) ∧
    get_hours_per_day [(100, 0), (104, 86400), (105, 158400), (108, 244800)] =
      some (48 / 17) ∧
    get_hours_per_day [(100, 0), (104, 86400), (105, 777600), (108, 864000)] =
      some 3 := by
  refine ⟨?_, ?_, ?_,
    by norm_num [get_hours_per_day, sortByTs, insertByTs, findGapIdx],
    by norm_num [get_hours_per_day, sortByTs, insertByTs, findGapIdx]⟩
  · intro history h
    simp [get_hours_per_day, h]
  · intro history hchain hlen hgaps hspan
    have hsort := sortByTs_sorted_id hchain
    simp only [get_hours_per_day, hsort]
    rw [if_neg (by omega), if_neg (by omega)]
    rw [findGapIdx_spec_zero history (history.length - 1) hgaps]
    rw [if_neg (by omega)]
    rw [if_neg (not_le.mpr hspan)]
  · intro history k hchain hk1 hklt hgap hafter hspan
    have hsort := sortByTs_sorted_id hchain
    simp only [get_hours_per_day, hsort]
    rw [if_neg (by omega), if_neg (by omega)]
    rw [findGapIdx_spec_gap history k hk1 (history.length - 1) (by omega) hgap hafter]
    rw [if_neg (by omega)]
    rw [if_neg (not_le.mpr hspan)]

/-- C7 witness: the three hypothesis-bearing conjuncts instantiated. -/
theorem usage_rate_gap_detection_witness :
    get_hours_per_day [((5 : Int), (0 : ℚ))] = none ∧
    get_hours_per_day [(100, 0), (104, 86400)] = some 4 ∧
    get_hours_per_day [(100, 0), (104, 86400), (105, 777600), (108, 864000)] =
      some 3 := by
  refine ⟨usage_rate_gap_detection.1 _ (by norm_num), ?_, ?_⟩
  · have h := usage_rate_gap_detection.2.1 [(100, 0), (104, 86400)]
      (by norm_num [List.chain'_cons]) (by norm_num)
      (by
        intro j h1 h2
        simp only [List.length_cons, List.length_nil] at h2
        have hj : j = 1 := by omega
        subst hj; norm_num) (by norm_num)
    norm_num at h
    exact h
  · have h := usage_rate_gap_detection.2.2.1 [(100, 0), (104, 86400), (105, 777600), (108, 864000)] 2
      (by norm_num [List.chain'_cons]) (by norm_num) (by norm_num) (by norm_num)
      (by
        intro j h1 h2
        simp only [List.length_cons, List.length_nil] at h2
        have hj : j = 3 := by omega
        subst hj; norm_num) (by norm_num)
    norm_num at h
    exact h

lemma apply_update_outcome_fields (st : SupervisorState) (o : UpdateOutcome) :
    (apply_update_outcome st o).startupTime = st.startupTime ∧
    (apply_update_outcome st o).startupGracePeriod = st.startupGracePeriod ∧
    (st.hasConnectedOnce = true → (apply_update_outcome st o).hasConnectedOnce = true) := by
  cases o with
  | success => simp [apply_update_outcome]
  | failure =>
    simp only [apply_update_outcome]
    split <;> simp

lemma foldl_update_fields (outcomes : List UpdateOutcome) :
    ∀ st : SupervisorState,
      (outcomes.foldl apply_update_outcome st).startupTime = st.startupTime ∧
      (outcomes.foldl apply_update_outcome st).startupGracePeriod = st.startupGracePeriod ∧
      (st.hasConnectedOnce = true →
        (outcomes.foldl apply_update_outcome st).hasConnectedOnce = true) := by
  induction outcomes with
  | nil => intro st; exact ⟨rfl, rfl, fun h => h⟩
  | cons o rest ih =>
    intro st
    obtain ⟨h1, h2, h3⟩ := apply_update_outcome_fields st o
    obtain ⟨g1, g2, g3⟩ := ih (apply_update_outcome st o)
    exact ⟨g1.trans h1, g2.trans h2, fun h => g3 (h3 h)⟩

/-- C8: once the startup grace period has ended — the predicate is already
false at time `now`, whether because the configured duration elapsed or
because `_has_connected_once` was set — it stays false at every later time
through any further sequence of update outcomes; and after any successful
update it is false forever. -/
theorem startup_grace_period_permanent :
    (∀ (st : SupervisorState) (now now' : ℚ) (outcomes : List UpdateOutcome),
      in_startup_grace_period st now = false → now ≤ now' →
      in_startup_grace_period (outcomes.foldl apply_update_outcome st) now' = false) ∧
    (∀ (st : SupervisorState) (outcomes : List UpdateOutcome) (now : ℚ),
      in_startup_grace_period
        (outcomes.foldl apply_update_outcome (apply_update_outcome st .success)) now =
        false) := by
  constructor
  · intro st now now' outcomes h hle
    obtain ⟨hT, hG, hC⟩ := foldl_update_fields outcomes st
    unfold in_startup_grace_period at h ⊢
    by_cases hc : (outcomes.foldl apply_update_outcome st).hasConnectedOnce = true
    · rw [if_pos hc]
    · rw [if_neg hc]
      have hc0 : ¬ st.hasConnectedOnce = true := fun h0 => hc (hC h0)
      rw [if_neg hc0] at h
      rw [hT, hG]
      by_cases hg : st.startupGracePeriod ≤ 0
      · rw [if_pos hg]
      · rw [if_neg hg]
        rw [if_neg hg] at h
        simp only [decide_eq_false_iff_not, not_lt] at h ⊢
        linarith
  · intro st outcomes now
    obtain ⟨_, _, hC⟩ := foldl_update_fields outcomes (apply_update_outcome st .success)
    unfold in_startup_grace_period
    rw [if_pos (hC rfl)]

/-- C8 witness: a 60-second grace period that has expired at t=60 stays
expired at t=61 across a failure; a success at any point ends it. -/
theorem startup_grace_period_permanent_witness :
    in_startup_grace_period
      (List.foldl apply_update_outcome ⟨false, 0, 60, 0, 0⟩ [.failure]) 61 = false ∧
    in_startup_grace_period
      (List.foldl apply_update_outcome
        (apply_update_outcome ⟨false, 0, 60, 0, 0⟩ .success) [.failure]) 10 = false :=
  ⟨startup_grace_period_permanent.1 ⟨false, 0, 60, 0, 0⟩ 60 61 [.failure]
      (by norm_num [in_startup_grace_period]) (by norm_num),
   startup_grace_period_permanent.2 ⟨false, 0, 60, 0, 0⟩ [.failure] 10⟩

lemma engineStopLoop_fst_true (flag : Bool) :
    ∀ (fuel : Nat) (outcomes : List WriteOutcome),
      (engineStopLoop flag fuel outcomes).1 = true := by
  intro fuel
  induction fuel with
  | zero => intro outcomes; rfl
  | succ m ih =>
    intro outcomes
    rw [engineStopLoop]
    cases outcomes.headD .ok <;> simp [ih]

lemma engineStopLoop_failure (flag : Bool) :
    ∀ (k fuel : Nat) (outcomes : List WriteOutcome),
      k < fuel →
      (∀ j, j < k → outcomes.getD j .ok = .ok) →
      outcomes.getD k .ok ≠ .ok →
      engineStopLoop flag fuel outcomes = (true, false) := by
  intro k
  induction k with
  | zero =>
    intro fuel outcomes hlt hpre h0
    match fuel, hlt with
    | m + 1, _ =>
      rw [engineStopLoop]
      cases outcomes with
      | nil => exact absurd rfl h0
      | cons o os =>
        simp only [List.headD_cons] at h0 ⊢
        cases o with
        | ok => exact absurd rfl h0
        | timeout => rfl
        | exc => rfl
  | succ n ih =>
    intro fuel outcomes hlt hpre hk
    match fuel, hlt with
    | m + 1, _ =>
      rw [engineStopLoop]
      cases outcomes with
      | nil => simp at hk
      | cons o os =>
        have h0 : o = .ok := by simpa using hpre 0 (by omega)
        subst h0
        simp only [List.headD_cons, List.tail_cons]
        exact ih m os (by omega)
          (fun j hj => by simpa using hpre (j + 1) (by omega))
          (by simpa using hk)

/-- C10: with a live connected client, if some write times out or raises
before `max_attempts` writes complete, `engine_stop` returns `True` and
clears the `connected` flag; and the call returns `False` exactly when
there is no connected client at entry. -/
theorem engine_stop_disconnect_semantics :
    (∀ (flag : Bool) (maxAttempts : Nat) (outcomes : List WriteOutcome) (k : Nat),
      k < maxAttempts →
      (∀ j, j < k → outcomes.getD j .ok = .ok) →
      outcomes.getD k .ok ≠ .ok →
      engine_stop true flag maxAttempts outcomes = (true, false)) ∧
    (∀ (c flag : Bool) (maxAttempts : Nat) (outcomes : List WriteOutcome),
      (engine_stop c flag maxAttempts outcomes).1 = false ↔ c = false) := by
  constructor
  · intro flag maxAttempts outcomes k hlt hpre hk
    unfold engine_stop
    simp only [Bool.not_true, not_true_eq_false, if_false]
    exact engineStopLoop_failure flag k maxAttempts outcomes hlt hpre hk
  · intro c flag maxAttempts outcomes
    cases c with
    | false => simp [engine_stop]
    | true =>
      simp only [engine_stop]
      simp [engineStopLoop_fst_true]

/-- C10 witness: a timeout on the second of three writes, and the
not-connected fast path. -/
theorem engine_stop_disconnect_semantics_witness :
    engine_stop true true 3 [.ok, .timeout] = (true, false) ∧
    (engine_stop false true 3 []).1 = false :=
  ⟨engine_stop_disconnect_semantics.1 true 3 [.ok, .timeout] 1 (by decide)
      (fun j hj => by interval_cases j; rfl) (by decide),
   (engine_stop_disconnect_semantics.2 false true 3 []).mpr rfl⟩

/-- C9 counterexample: for `exampleServiceCtx` at `now = 1000` both the
hours-based estimate (1081000 s) and the calendar-based estimate
(15552500 s) exist and the service is not due, yet the returned date is
1080000 s — the hour-floor of the earlier estimate — not the earlier
estimate 1081000 s itself, contrary to the claim. -/
theorem service_date_hour_floor_counterexample :
    (get_estimated_service_date exampleServiceCtx 1000).1 = some 1080000 ∧
    min ((1000 : ℚ) + (50 + 100 - 100) / 4 * 86400) (500 + 180 * 86400) = 1081000 ∧
    (get_estimated_service_date exampleServiceCtx 1000).1 ≠ some (1081000 : ℚ) := by
  refine ⟨?_, by norm_num, ?_⟩ <;>
    norm_num [exampleServiceCtx, get_estimated_service_date, is_service_due,
      effectiveInterval, OIL_CHANGE_BREAKIN_INTERVAL, floorHour,
      get_hours_per_day, sortByTs, insertByTs, findGapIdx]

/-- C9 (amended): when a service has both an hours-based estimate (positive
usage rate) and a calendar-based estimate (interval days and last-service
date present, after the break-in override), the date returned is the
earlier of the two estimates rounded down to the start of its hour —
provided the service is not currently due; when the service is due and a
snapshot was stored, the snapshot is returned instead. -/
theorem service_date_earlier_estimate_floored :
    (∀ (ctx : ServiceCtx) (now : ℚ) (iv : ServiceInterval) (rec : ServiceRecord)
        (H D : Int) (date rate : ℚ),
      ctx.interval = some iv →
      ctx.record = some rec →
      effectiveInterval ctx.isOilChange rec.hours iv = ⟨some H, some D⟩ →
      rec.date = some date →
      get_hours_per_day ctx.history = some rate →
      0 < rate →
      is_service_due ctx now = false →
      (get_estimated_service_date ctx now).1 =
        some (floorHour (min
          (now + ((rec.hours + H - ctx.storedRuntimeHours.getD 0 : Int) : ℚ) / rate * 86400)
          (date + (D : ℚ) * 86400)))) ∧
    (∀ (ctx : ServiceCtx) (now : ℚ) (iv : ServiceInterval) (rec : ServiceRecord)
        (H D : Int) (date rate snap : ℚ),
      ctx.interval = some iv →
      ctx.record = some rec →
      effectiveInterval ctx.isOilChange rec.hours iv = ⟨some H, some D⟩ →
      rec.date = some date →
      get_hours_per_day ctx.history = some rate →
      0 < rate →
      is_service_due ctx now = true →
      ctx.snapshot = some snap →
      (get_estimated_service_date ctx now).1 = some snap) := by
  constructor
  · intro ctx now iv rec H D date rate hIv hRec hEff hDate hRate hPos hDue
    simp only [get_estimated_service_date, hIv, hRec, hEff, hDate, hRate, hDue,
      if_pos hPos, Bool.false_eq_true, if_false]
  · intro ctx now iv rec H D date rate snap hIv hRec hEff hDate hRate hPos hDue hSnap
    simp only [get_estimated_service_date, hIv, hRec, hEff, hDate, hRate, hDue, hSnap,
      if_pos hPos]
    simp

/-- C9 witness: the amended statement at the two concrete contexts. -/
theorem service_date_earlier_estimate_floored_witness :
    (get_estimated_service_date exampleServiceCtx 1000).1 =
      some (floorHour (min
        ((1000 : ℚ) + ((50 + 100 - 100 : Int) : ℚ) / 4 * 86400)
        (500 + (180 : ℚ) * 86400))) ∧
    (get_estimated_service_date exampleServiceCtxDue 1000).1 = some 777 := by
  constructor
  · exact service_date_earlier_estimate_floored.1 exampleServiceCtx 1000
      ⟨some 100, some 180⟩ ⟨50, some 500⟩ 100 180 500 4 rfl rfl rfl rfl
      (by norm_num [exampleServiceCtx, get_hours_per_day, sortByTs, insertByTs,
        findGapIdx])
      (by norm_num)
      (by norm_num [exampleServiceCtx, is_service_due, effectiveInterval,
        OIL_CHANGE_BREAKIN_INTERVAL])
  · exact service_date_earlier_estimate_floored.2 exampleServiceCtxDue 1000
      ⟨some 100, some 180⟩ ⟨50, some 500⟩ 100 180 500 4 777 rfl rfl rfl rfl
      (by norm_num [exampleServiceCtxDue, get_hours_per_day, sortByTs, insertByTs,
        findGapIdx])
      (by norm_num)
      (by norm_num [exampleServiceCtxDue, is_service_due, effectiveInterval,
        OIL_CHANGE_BREAKIN_INTERVAL])
      rfl

end HondaGenerator
